import Mathlib

/-!
# zaplogmanager — verification of the log retention and compression engine

Shallow embedding of the naming classifier, compression engine, expiration
sweeper, scheduler and concurrency-guard logic of the `zaplogmanager`
repository, together with proofs settling the frozen claims C1–C10.

Conventions used throughout:

* Instants are integers. For the classifier and sweeper they are **minutes**
  since the Unix epoch (the code only ever compares a parsed date's midnight
  against a cutoff instant); for the scheduler they are **seconds** since the
  epoch, read in the local clock unless stated otherwise.
* File names handed to the extractors are base names (the Go code applies
  `filepath.Base` before matching); none of the modelled names contain `/`.
* `time.Parse("20060102", s)` yields midnight UTC of the parsed day and fails
  on syntactically well-formed but invalid calendar dates (such as Feb 30);
  this is modelled by `validDate` / `dayNumber`.
-/

namespace ZapLog

/-! ## Digits and calendar arithmetic -/

/-- Decimal value of a digit character, `none` for non-digits
(models the `\d` character class). -/
def digitVal? (c : Char) : Option Nat :=
  if 48 ≤ c.toNat ∧ c.toNat ≤ 57 then some (c.toNat - 48) else none

/-- The `[-_]` character class of `dateRegex` (src/globals.go line 12). -/
def isSepChar (c : Char) : Bool := c == '-' || c == '_'

/-- The `[-_.]` character class closing the `dateRegex` token. -/
def isTailChar (c : Char) : Bool := c == '-' || c == '_' || c == '.'

/-- Gregorian leap-year rule, as used by Go's `time` package. -/
def isLeapYear (y : Nat) : Bool := y % 4 == 0 && (y % 100 != 0 || y % 400 == 0)

/-- Number of days of month `m` (1–12) in year `y`. -/
def daysInMonth (y m : Nat) : Nat :=
  if m = 2 then (if isLeapYear y then 29 else 28)
  else if m = 4 ∨ m = 6 ∨ m = 9 ∨ m = 11 then 30 else 31

/-- Calendar validity as enforced by `time.Parse("20060102", ·)`:
month in range and day within the month's length. -/
def validDate (y m d : Nat) : Bool :=
  1 ≤ m && m ≤ 12 && 1 ≤ d && d ≤ daysInMonth y m

/-- Days from 1970-01-01 to `y`-01-01 (for `y ≥ 1970`): 477 is the number of
proleptic-Gregorian leap years up to 1969. -/
def daysBeforeYear (y : Nat) : Nat :=
  365 * (y - 1970) + ((y - 1) / 4 - (y - 1) / 100 + (y - 1) / 400 - 477)

/-- Days in year `y` strictly before month `m`. -/
def daysBeforeMonth (y m : Nat) : Nat :=
  (List.range (m - 1)).foldl (fun acc i => acc + daysInMonth y (i + 1)) 0

/-- Unix day number of the date `y-m-d` (days since 1970-01-01). -/
def dayNumber (y m d : Nat) : Nat := daysBeforeYear y + daysBeforeMonth y m + (d - 1)

/-- The instant (in minutes since the epoch) of midnight UTC of `y-m-d`:
this is the value `time.Parse("20060102", ...)` produces. -/
def dateMidnightUTC (y m d : Nat) : Int := (dayNumber y m d : Int) * 1440

/-- Midnight UTC of the day containing `now`
(`time.Date(now.Year(), now.Month(), now.Day(), 0,0,0,0, time.UTC)`
for `now` already in UTC, src/logger.go lines 244-245). -/
def utcMidnightOf (now : Int) : Int := now.fdiv 1440 * 1440

/-- Local midnight of the day containing `now`, expressed in UTC minutes,
for a fixed local offset `off` minutes east of UTC
(`time.Date(now.Year(), ..., now.Location())` for `now` in local time,
src/unnamed/part_005 lines 48-49). -/
def localMidnightOf (now off : Int) : Int := (now + off).fdiv 1440 * 1440 - off

/-! ## The `dateRegex` extractor

`dateRegex = (?:^|[-_])(20\d{2}(?:0[1-9]|1[0-2])(?:0[1-9]|[12][0-9]|3[01]))(?:[-_.]|$)`
(src/globals.go line 12).  The captured token is eight **contiguous** digit
characters; numerically the three regex pieces are exactly
year ∈ [2000,2099], month ∈ [1,12], day ∈ [1,31]. -/

/-- Whether the character following the 8-digit token satisfies `(?:[-_.]|$)`. -/
def boundaryOk : List Char → Bool
  | [] => true
  | c :: _ => isTailChar c

/-- Match the captured token of `dateRegex` at the head of `l`:
eight digit characters forming `YYYYMMDD` with year in [2000,2099]
(the `20\d{2}` piece), month in [1,12] (`0[1-9]|1[0-2]`), day in [1,31]
(`0[1-9]|[12][0-9]|3[01]`), followed by `-`, `_`, `.` or end of string. -/
def tokenAt : List Char → Option (Nat × Nat × Nat)
  | c1 :: c2 :: c3 :: c4 :: c5 :: c6 :: c7 :: c8 :: rest =>
    match digitVal? c1, digitVal? c2, digitVal? c3, digitVal? c4,
          digitVal? c5, digitVal? c6, digitVal? c7, digitVal? c8 with
    | some a, some b, some c, some d, some e, some f, some g, some h =>
      if 2000 ≤ 1000 * a + 100 * b + 10 * c + d ∧
          1000 * a + 100 * b + 10 * c + d ≤ 2099 ∧
          1 ≤ 10 * e + f ∧ 10 * e + f ≤ 12 ∧
          1 ≤ 10 * g + h ∧ 10 * g + h ≤ 31 ∧
          boundaryOk rest = true
      then some (1000 * a + 100 * b + 10 * c + d, 10 * e + f, 10 * g + h)
      else none
    | _, _, _, _, _, _, _, _ => none
  | _ => none

/-- Leftmost match of `dateRegex` (`FindStringSubmatch`): the `(?:^|[-_])`
alternation matches either the start of the string (`atStart = true`, empty
width) or consumes one `-`/`_`; scanning proceeds left to right. -/
def findDateGo : Bool → List Char → Option (Nat × Nat × Nat)
  | _, [] => none
  | atStart, c :: rest =>
    if atStart then
      match tokenAt (c :: rest) with
      | some r => some r
      | none =>
        if isSepChar c then
          match tokenAt rest with
          | some r => some r
          | none => findDateGo false rest
        else findDateGo false rest
    else
      if isSepChar c then
        match tokenAt rest with
        | some r => some r
        | none => findDateGo false rest
      else findDateGo false rest

/-- The full date extraction used by `isOldLogFile` and `isGzExpired`
(src/logger.go lines 230-241 and 279-287): match `dateRegex` against the base
name, then parse the captured digits with `time.Parse("20060102", ·)`;
both a failed match and a calendar-invalid token give no date. -/
def extractValidDate (name : String) : Option (Nat × Nat × Nat) :=
  match findDateGo true name.data with
  | some (y, m, d) => if validDate y m d then some (y, m, d) else none
  | none => none

/-! ## The `parseDateFromFileName` extractor of src/unnamed/part_001

Regex `(\d{4})[-_]?(\d{2})[-_]?(\d{2})` (part_001 line 152): any four digits,
an optional separator, two digits, an optional separator, two digits — no
year-range and no syntactic month/day restriction; calendar validity is then
enforced by `time.Parse("20060102", ·)` (part_001 line 157). -/

/-- Read two digit characters (`\d{2}`), returning their value and the rest. -/
def twoDigitsAt : List Char → Option (Nat × List Char)
  | c1 :: c2 :: rest =>
    match digitVal? c1, digitVal? c2 with
    | some a, some b => some (10 * a + b, rest)
    | _, _ => none
  | _ => none

/-- The greedy `[-_]?`: if a separator is present it is consumed (if digits do
not follow, backtracking to the empty branch also fails, since a separator is
not a digit). -/
def skipOptSep : List Char → List Char
  | c :: rest => if isSepChar c then rest else c :: rest
  | [] => []

/-- Match `(\d{4})[-_]?(\d{2})[-_]?(\d{2})` at the head of `l`. -/
def flexTokenAt : List Char → Option (Nat × Nat × Nat)
  | c1 :: c2 :: c3 :: c4 :: rest =>
    match digitVal? c1, digitVal? c2, digitVal? c3, digitVal? c4 with
    | some a, some b, some c, some d =>
      match twoDigitsAt (skipOptSep rest) with
      | some (mo, rest2) =>
        match twoDigitsAt (skipOptSep rest2) with
        | some (dy, _) => some (1000 * a + 100 * b + 10 * c + d, mo, dy)
        | none => none
      | none => none
    | _, _, _, _ => none
  | _ => none

/-- Leftmost match of the part_001 regex. -/
def findFlexDate : List Char → Option (Nat × Nat × Nat)
  | [] => none
  | c :: rest =>
    match flexTokenAt (c :: rest) with
    | some r => some r
    | none => findFlexDate rest

/-- `parseDateFromFileName` (src/unnamed/part_001 lines 147-158): leftmost
match of the flexible regex on the base name, then calendar validation by
`time.Parse`. `none` models the returned error. -/
def parseDateFromFileName (name : String) : Option (Nat × Nat × Nat) :=
  match findFlexDate name.data with
  | some (y, m, d) => if validDate y m d then some (y, m, d) else none
  | none => none

/-! ## Classifier predicates -/

/-- List-level suffix test (`Bool`-valued). -/
def listIsSuffix (suf s : List Char) : Bool := List.isPrefixOf suf.reverse s.reverse

/-- `gzExtRegex = \.log\.gz$` (src/globals.go line 14). -/
def gzExtMatches (name : String) : Bool := listIsSuffix ".log.gz".data name.data

/-- `isOldLogFile` as in src/logger.go lines 227-249: the current day's
midnight is computed from `time.Now().UTC()` in the UTC location, and the
parsed file date must be strictly before it. -/
def isOldLogFileLoggerGo (name : String) (now : Int) : Bool :=
  match extractValidDate name with
  | none => false
  | some (y, m, d) => decide (dateMidnightUTC y m d < utcMidnightOf now)

/-- `isOldLogFile` as in src/unnamed/part_005 lines 32-55: the current day's
midnight is computed from `time.Now().Local()` in the local location
(`off` minutes east of UTC), and the parsed file date (midnight UTC) must be
strictly before that instant. -/
def isOldLogFilePart005 (name : String) (now off : Int) : Bool :=
  match extractValidDate name with
  | none => false
  | some (y, m, d) => decide (dateMidnightUTC y m d < localMidnightOf now off)

/-- `isGzExpired` (src/logger.go lines 277-291): extract the date with
`dateRegex`/`time.Parse` from the base name and compare it strictly against
`time.Now().Add(-maxSaveTime)`, i.e. `now - retMin`. -/
def isGzExpired (name : String) (retMin now : Int) : Bool :=
  match extractValidDate name with
  | none => false
  | some (y, m, d) => decide (dateMidnightUTC y m d < now - retMin)

/-- Per-file removal decision of `cleanExpiredGzLogs`
(src/unnamed/part_001 lines 126-144): remove exactly when the path matches
`gzExtRegex`, `parseDateFromFileName` succeeds, and the parsed date is
strictly before the cutoff `time.Now().Add(-maxSaveTime)`. -/
def cleanExpiredRemoves (name : String) (retMin now : Int) : Bool :=
  if gzExtMatches name then
    match parseDateFromFileName name with
    | some (y, m, d) => decide (dateMidnightUTC y m d < now - retMin)
    | none => false
  else false

/-- Modelled from the spec's words for claim C4 only (refinement comparison):
"scans left to right for a year-month-day token of the form `YYYY[-_]?MM[-_]?DD`
(8 contiguous digits or digits separated by `-` or `_`) with year in
[2000,2099], month in [01,12], day in [01,31], and returns the first such
match", failing also "when the matched digits do not form a valid calendar
date". -/
def specTokenAt (l : List Char) : Option (Nat × Nat × Nat) :=
  match flexTokenAt l with
  | some (y, mo, dy) =>
    if 2000 ≤ y ∧ y ≤ 2099 ∧ 1 ≤ mo ∧ mo ≤ 12 ∧ 1 ≤ dy ∧ dy ≤ 31
    then some (y, mo, dy) else none
  | none => none

/-- Modelled from the spec's words for claim C4 (see `specTokenAt`):
first matching token left to right, then calendar validation. -/
def specFindDate : List Char → Option (Nat × Nat × Nat)
  | [] => none
  | c :: rest =>
    match specTokenAt (c :: rest) with
    | some r => some r
    | none => specFindDate rest

/-- Modelled from the spec's words for claim C4 (see `specTokenAt`). -/
def specExtractDate (name : String) : Option (Nat × Nat × Nat) :=
  match specFindDate name.data with
  | some (y, m, d) => if validDate y m d then some (y, m, d) else none
  | none => none

/-! ## Directory-state model for the compression engine (claim C1)

A directory is a finite map from file names to contents.  Contents track just
what the atomicity claim distinguishes: the original log payload, a gzip
archive that is complete, a gzip archive that is incomplete (zero bytes or a
partial stream — `os.Create` first truncates the destination to zero bytes,
and a failing `io.Copy` leaves whatever prefix was flushed), and a file
truncated to zero length by `os.Truncate`. -/

/-- Content of one file in the modelled directory. -/
inductive FileContent where
  | data (n : Nat)
  | gzIncomplete (n : Nat)
  | gzComplete (n : Nat)
  | truncated
deriving DecidableEq

/-- A directory state: an association list from file name to content. -/
abbrev DirState := List (String × FileContent)

/-- Look up a file. -/
def fsGet : DirState → String → Option FileContent
  | [], _ => none
  | (k, v) :: rest, p => if k = p then some v else fsGet rest p

/-- Remove a file (no-op when absent, like a failing `os.Remove` whose error
is only logged). -/
def fsErase : DirState → String → DirState
  | [], _ => []
  | (k, v) :: rest, p => if k = p then fsErase rest p else (k, v) :: fsErase rest p

/-- Create or overwrite a file. -/
def fsSet (fs : DirState) (p : String) (c : FileContent) : DirState :=
  (p, c) :: fsErase fs p

/-- `os.Rename a b`: atomic; replaces `b` with `a`'s content, removing `a`. -/
def fsRename (fs : DirState) (a b : String) : DirState :=
  match fsGet fs a with
  | some c => fsSet (fsErase fs a) b c
  | none => fs

/-- Size of the payload behind an optional content (0 when not original data). -/
def contentSize : Option FileContent → Nat
  | some (.data n) => n
  | _ => 0

/-- Where a run of `gzipLogFile` (src/logger.go lines 182-224) is made to
fail: at `os.Open(src)`, at `os.Create(dst)`, at `io.Copy`, or nowhere. -/
inductive GzFailPoint where
  | atOpen | atCreate | atCopy | noFail
deriving DecidableEq

/-- `gzipLogFile` (src/logger.go lines 182-224): opens `src`, creates the
destination **directly under the final archive name** `src ++ ".gz"`
(`os.Create` truncates/creates it as a zero-byte file), then streams the gzip
transform into it.  There is no temporary file and no rename; on a copy
failure the incomplete archive is left in place (the deferred calls only
close the handles). -/
def gzipLogFile (fs : DirState) (src : String) (fail : GzFailPoint) :
    DirState × Bool :=
  if fail = .atOpen ∨ fsGet fs src = none then (fs, true)
  else if fail = .atCreate then (fs, true)
  else
    let dst := src ++ ".gz"
    let fs1 := fsSet fs dst (.gzIncomplete 0)
    if fail = .atCopy then (fs1, true)
    else (fsSet fs1 dst (.gzComplete (contentSize (fsGet fs src))), false)

/-- `safeCompress` (src/logger.go lines 294-312): skip silently when `src`
does not exist; otherwise run `gzipLogFile` and, only on success, remove the
source file. -/
def safeCompress (fs : DirState) (src : String) (fail : GzFailPoint) :
    DirState × Bool :=
  if fsGet fs src = none then (fs, false)
  else
    let r := gzipLogFile fs src fail
    if r.2 then (r.1, true)
    else (fsErase r.1 src, false)

/-- Where a run of `atomicGzipWithIndex`/`gzipLogFileWithIndex`
(src/unnamed/part_001 lines 238-303) is made to fail. -/
inductive IdxFailPoint where
  | atOpen | atCreate | atCopy | atTruncate | atRename | noFail
deriving DecidableEq

/-- `gzipLogFileWithIndex` (src/unnamed/part_001 lines 261-303): opens `src`,
creates `dst` (zero bytes), streams the gzip transform, and on success
truncates `src` to zero length in place (`os.Truncate(src, 0)`, line 297);
the truncation happens inside this function, before any rename by the
caller. -/
def gzipLogFileWithIndex (fs : DirState) (src dst : String)
    (fail : IdxFailPoint) : DirState × Bool :=
  if fail = .atOpen ∨ fsGet fs src = none then (fs, true)
  else if fail = .atCreate then (fs, true)
  else
    let fs1 := fsSet fs dst (.gzIncomplete 0)
    if fail = .atCopy then (fs1, true)
    else
      let fs2 := fsSet fs1 dst (.gzComplete (contentSize (fsGet fs src)))
      if fail = .atTruncate then (fs2, true)
      else (fsSet fs2 src .truncated, false)

/-- `atomicGzipWithIndex` (src/unnamed/part_001 lines 238-258): writes
through the temp name `dst ++ ".tmp"` with `gzipLogFileWithIndex`, then
renames the temp file onto `dst`.  The deferred `os.Remove(tmpFile)` runs on
every exit path; after a successful rename the temp name no longer exists and
the remove is a logged no-op. -/
def atomicGzipWithIndex (fs : DirState) (src dst : String)
    (fail : IdxFailPoint) : DirState × Bool :=
  let tmp := dst ++ ".tmp"
  let r := gzipLogFileWithIndex fs src tmp fail
  if r.2 then (fsErase r.1 tmp, true)
  else if fail = .atRename then (fsErase r.1 tmp, true)
  else (fsRename r.1 tmp dst, false)

/-! ## Indexed archive naming (claim C2) -/

/-- Go `filepath.Ext`: the suffix of the final path element beginning at its
last dot, empty when there is no dot (modelled names contain no `/`). -/
def goExt (s : String) : String :=
  let r := s.data.reverse
  let tail := r.takeWhile (fun c => !(c == '.' || c == '/'))
  match r.drop tail.length with
  | '.' :: _ => ⟨'.' :: tail.reverse⟩
  | _ => ""

/-- Go `strings.TrimSuffix`. -/
def trimSuffixStr (s suf : String) : String :=
  if listIsSuffix suf.data s.data then ⟨s.data.take (s.data.length - suf.data.length)⟩
  else s

/-- Decimal value of a digit run (Go `strconv.Atoi` on the capture). -/
def digitsToNat (l : List Char) : Nat :=
  l.foldl (fun acc c => 10 * acc + (c.toNat - 48)) 0

/-- `existingIndex` (src/unnamed/part_001 lines 225-235): regex
`\.log\.(\d+)\.gz$` — the name must end with `.gz`, immediately preceded by a
nonempty digit run, immediately preceded by `.log.`; returns the digit run's
value, and 0 when the regex does not match.  (The digit run abutting `.gz` is
necessarily maximal since it must be preceded by the dot of `.log.`.) -/
def existingIndex (f : String) : Nat :=
  match f.data.reverse with
  | 'z' :: 'g' :: '.' :: rest =>
    let digs := rest.takeWhile (fun c => decide (48 ≤ c.toNat ∧ c.toNat ≤ 57))
    if digs.isEmpty then 0
    else if List.isPrefixOf (".log.".data.reverse) (rest.drop digs.length)
    then digitsToNat digs.reverse else 0
  | _ => 0

/-- Whether `f` matches the glob pattern `base ++ ".*.gz"`
(`filepath.Glob(baseName + ".*.gz")`, part_001 line 209): `*` matches any run
of non-separator characters, so `f` must be `base ++ "." ++ t ++ ".gz"` for
some `t`. -/
def globStarGz (base f : String) : Bool :=
  List.isPrefixOf (base.data ++ ['.']) f.data &&
    listIsSuffix ".gz".data f.data &&
    decide (base.data.length + 4 ≤ f.data.length)

/-- Archive name chosen by `compressCurrentLogWithIndex`
(src/unnamed/part_001 lines 207-223): strip the extension from `src`, collect
the files matching `baseName.*.gz` among `dirFiles` (the directory listing),
take the maximum `existingIndex` over them, and use that maximum plus one. -/
def compressCurrentLogWithIndexName (src : String) (dirFiles : List String) :
    String :=
  let baseName := trimSuffixStr src (goExt src)
  let existing := dirFiles.filter (fun f => globStarGz baseName f)
  let maxIndex := existing.foldl (fun acc f => max acc (existingIndex f)) 0
  baseName ++ "." ++ toString (maxIndex + 1) ++ ".gz"

/-- Index search of the other `compressCurrentLogWithIndex` revision
(src/unnamed/part_001 lines 489-502): starting at 1, take the first index
whose archive name does not exist (`os.Stat` + `os.IsNotExist`).  Fuel bounds
the search; `dirFiles.length + 1` indices always contain a free one. -/
def firstFreeIndexGo (baseName : String) (dirFiles : List String) :
    Nat → Nat → Nat
  | i, 0 => i
  | i, fuel + 1 =>
    if (baseName ++ "." ++ toString i ++ ".gz") ∈ dirFiles
    then firstFreeIndexGo baseName dirFiles (i + 1) fuel
    else i

/-- Archive name chosen by the first-free-index revision of
`compressCurrentLogWithIndex` (src/unnamed/part_001 lines 489-502). -/
def compressCurrentLogFirstFreeName (src : String) (dirFiles : List String) :
    String :=
  let baseName := trimSuffixStr src (goExt src)
  let idx := firstFreeIndexGo baseName dirFiles 1 (dirFiles.length + 1)
  baseName ++ "." ++ toString idx ++ ".gz"

/-! ## Throttle state machine (claim C6) -/

/-- `minInterval = time.Second * 5` (src/unnamed/part_003 line 18), in
seconds. -/
def minIntervalSec : Int := 5

/-- The process-wide `lastRunTime` guarded by `taskLock`. -/
structure ThrottleState where
  lastRun : Int
deriving DecidableEq

/-- One invocation of `safeRunCompressionJob` (src/safety_utils.go lines
12-30) at instant `now`: if `time.Since(lastRunTime) < minInterval` the
invocation returns at once, changing nothing and running no pass; otherwise
`lastRunTime` is set to `now` and the pass runs.  The returned flag is
whether the pass ran. -/
def safeRunStep (now : Int) (st : ThrottleState) : ThrottleState × Bool :=
  if now - st.lastRun < minIntervalSec then (st, false)
  else ({ lastRun := now }, true)

/-- The instants, out of a sequence of invocation instants `ts`, at which the
throttle accepts and a pass starts. -/
def acceptedTimes : List Int → ThrottleState → List Int
  | [], _ => []
  | t :: ts, st =>
    let r := safeRunStep t st
    if r.2 then t :: acceptedTimes ts r.1 else acceptedTimes ts r.1

/-! ## Daily scheduler (claim C9) -/

/-- `nextRunTime` (src/unnamed/part_004 lines 101-117): instants are local
seconds since the epoch, truncated to whole seconds; the target is today's
`h:mi:s`, and if that instant is strictly before `now` (`next.Before(now)`),
one day is added (`AddDate(0, 0, 1)`). -/
def nextRunTime (h mi s : Nat) (nowLocal : Int) : Int :=
  let target := nowLocal.fdiv 86400 * 86400 + (h * 3600 + mi * 60 + s : Nat)
  if target < nowLocal then target + 86400 else target

/-- `isTargetHour` (src/unnamed/part_003 lines 94-96): whether the instant's
local hour equals `h`. -/
def isTargetHour (t : Int) (h : Nat) : Bool := (t.emod 86400).toNat / 3600 == h

/-- One iteration of `scheduleDailyJob` (src/unnamed/part_003 lines 47-65):
the timer fires at `nextRunTime h mi s nowLocal`; the pass (and the overnight
sweep) then runs only under the guard `isTargetHour(next, 1)` — the literal
`1`, not the configured hour (line 53). -/
def scheduleDailyFiresPass (h mi s : Nat) (nowLocal : Int) : Bool :=
  isTargetHour (nextRunTime h mi s nowLocal) 1

/-! ## Registry staleness scan (claim C8) -/

/-- The 5-minute staleness window, in seconds. -/
def staleWindowSec : Int := 300

/-- The eviction scan over `processingDirs` at the start of
`runCompressionJob` (src/unnamed/part_000 lines 56-61; the same loop runs
over `processingFiles` in `processDirectory`, lines 117-123): every
registration is deleted when `time.Since(lastRunTime) > time.Minute*5` —
the condition reads the process-wide `lastRunTime`, not anything about the
entry (the registry is a `map[string]bool` and stores no timestamps), so it
is the same for every entry of one scan. -/
def registryScan (regs : List String) (now lastRun : Int) : List String :=
  regs.filter (fun _ => decide (¬ now - lastRun > staleWindowSec))

/-! ## Panic containment model (claim C7)

Go semantics: `recover()` only intercepts a panic raised in the **same**
goroutine, inside a deferred call; a panic left unrecovered in any goroutine
terminates the whole process. -/

/-- One goroutine of a pass: whether its body panics, and whether any of its
deferred calls invokes `recover`. -/
structure GoroutineSpec where
  panicsInBody : Bool
  hasDeferredRecover : Bool
deriving DecidableEq

/-- Whether the process survives. -/
inductive ProcOutcome where
  | running | terminated
deriving DecidableEq

/-- A goroutine whose body panics with no deferred `recover` in that
goroutine brings the process down. -/
def goroutineUnrecovered (g : GoroutineSpec) : Bool :=
  g.panicsInBody && !g.hasDeferredRecover

/-- Outcome of running a set of goroutines. -/
def processOutcome (gs : List GoroutineSpec) : ProcOutcome :=
  if gs.any goroutineUnrecovered then .terminated else .running

/-- The goroutines of one pass entered through `safeRunCompressionJob`:
the invoking goroutine defers a `recover` (src/safety_utils.go lines 23-27)
and then runs `runCompressionJob`, which launches one worker goroutine per
directory (src/unnamed/part_000 lines 93-109); each worker defers only
`wg.Done`, the registry delete and the directory-lock unlock — none of its
deferred calls invokes `recover`. -/
def passGoroutines (dispatcherPanics : Bool) (workerPanicFlags : List Bool) :
    List GoroutineSpec :=
  { panicsInBody := dispatcherPanics, hasDeferredRecover := true } ::
    workerPanicFlags.map (fun p => { panicsInBody := p, hasDeferredRecover := false })

/-! ## File-lock probe (claim C10) -/

/-- Result of `os.OpenFile(path, os.O_RDWR|os.O_EXCL, 0)`. -/
inductive OpenOutcome where
  | opened | permDenied | failedOther
deriving DecidableEq

/-- What the two syscalls of `isFileLocked` observe for one path: whether
`os.Stat` reports not-exist, and how the exclusive open turns out. -/
structure FileProbe where
  statSaysNotExist : Bool
  openResult : OpenOutcome
deriving DecidableEq

/-- `isFileLocked` (src/logger.go lines 162-179): not-exist → `false`;
otherwise `true` exactly on `os.IsPermission(err)`; a successful open and
every other open error give `false`. -/
def isFileLocked (p : FileProbe) : Bool :=
  if p.statSaysNotExist then false
  else
    match p.openResult with
    | .permDenied => true
    | .opened => false
    | .failedOther => false

/-! ## Helper lemmas -/

theorem fsGet_fsErase (fs : DirState) (p q : String) :
    fsGet (fsErase fs p) q = if p = q then none else fsGet fs q := by
  induction fs with
  | nil => simp only [fsErase, fsGet]; split <;> rfl
  | cons kv tail ih =>
    obtain ⟨k, v⟩ := kv
    by_cases hpq : p = q
    · subst hpq
      by_cases hkp : k = p <;> simp [fsErase, fsGet, hkp, ih]
    · by_cases hkp : k = p <;> simp [fsErase, fsGet, hkp, hpq, ih]

theorem fsGet_fsSet (fs : DirState) (p q : String) (c : FileContent) :
    fsGet (fsSet fs p c) q = if p = q then some c else fsGet fs q := by
  simp only [fsSet, fsGet, fsGet_fsErase]
  split <;> rfl

theorem append_ne_self (s t : String) (ht : t.length ≠ 0) : s ++ t ≠ s := by
  intro h
  have := congrArg String.length h
  rw [String.length_append] at this
  omega

theorem tokenAt_ranges : ∀ (l : List Char) (y m d : Nat),
    tokenAt l = some (y, m, d) →
    2000 ≤ y ∧ y ≤ 2099 ∧ 1 ≤ m ∧ m ≤ 12 ∧ 1 ≤ d ∧ d ≤ 31 := by
  intro l y m d h
  unfold tokenAt at h
  repeat' split at h
  all_goals simp only [Option.some.injEq, Prod.mk.injEq, reduceCtorEq] at h
  rename_i hcond
  obtain ⟨rfl, rfl, rfl⟩ := h
  exact ⟨hcond.1, hcond.2.1, hcond.2.2.1, hcond.2.2.2.1, hcond.2.2.2.2.1,
    hcond.2.2.2.2.2.1⟩

theorem findDateGo_ranges : ∀ (l : List Char) (b : Bool) (y m d : Nat),
    findDateGo b l = some (y, m, d) →
    2000 ≤ y ∧ y ≤ 2099 ∧ 1 ≤ m ∧ m ≤ 12 ∧ 1 ≤ d ∧ d ≤ 31 := by
  intro l
  induction l with
  | nil => intro b y m d h; simp [findDateGo] at h
  | cons c rest ih =>
    intro b y m d h
    unfold findDateGo at h
    split at h
    · split at h
      · rename_i heq; simp only [Option.some.injEq] at h; subst h
        exact tokenAt_ranges _ _ _ _ heq
      · split at h
        · split at h
          · rename_i heq; simp only [Option.some.injEq] at h; subst h
            exact tokenAt_ranges _ _ _ _ heq
          · exact ih _ _ _ _ h
        · exact ih _ _ _ _ h
    · split at h
      · split at h
        · rename_i heq; simp only [Option.some.injEq] at h; subst h
          exact tokenAt_ranges _ _ _ _ heq
        · exact ih _ _ _ _ h
      · exact ih _ _ _ _ h

theorem processOutcome_running_iff (gs : List GoroutineSpec) :
    processOutcome gs = ProcOutcome.running ↔
      ∀ g ∈ gs, goroutineUnrecovered g = false := by
  unfold processOutcome
  by_cases h : gs.any goroutineUnrecovered = true
  · simp only [h, if_true]
    simp only [List.any_eq_true] at h
    obtain ⟨g, hg, hu⟩ := h
    constructor
    · intro habs; exact absurd habs (by decide)
    · intro hall; exact absurd (hall g hg) (by simp [hu])
  · simp only [h, if_false]
    simp only [List.any_eq_true, not_exists, not_and] at h
    constructor
    · intro _ g hg
      have := h g hg
      exact Bool.not_eq_true _ ▸ (by simpa using this)
    · intro _; rfl

theorem acceptedTimes_ge : ∀ (ts : List Int) (st : ThrottleState) (x : Int),
    x ∈ acceptedTimes ts st → st.lastRun + minIntervalSec ≤ x := by
  intro ts
  induction ts with
  | nil => intro st x hx; simp [acceptedTimes] at hx
  | cons t ts ih =>
    intro st x hx
    unfold acceptedTimes at hx
    by_cases hc : t - st.lastRun < minIntervalSec
    · simp [safeRunStep, hc] at hx
      exact ih st x hx
    · simp [safeRunStep, hc] at hx
      rcases hx with rfl | hx'
      · omega
      · have h2 : t + minIntervalSec ≤ x := ih ⟨t⟩ x hx'
        have hmi : minIntervalSec = 5 := rfl
        omega

theorem acceptedTimes_pairwise : ∀ (ts : List Int) (st : ThrottleState),
    (acceptedTimes ts st).Pairwise (fun a b => a + minIntervalSec ≤ b) := by
  intro ts
  induction ts with
  | nil => intro st; simp [acceptedTimes]
  | cons t ts ih =>
    intro st
    unfold acceptedTimes
    by_cases hc : t - st.lastRun < minIntervalSec
    · simp only [safeRunStep, hc, if_true, if_false]
      simp [hc]
      exact ih st
    · simp only [safeRunStep, hc, if_true, if_false]
      simp [hc]
      refine ⟨?_, ih ⟨t⟩⟩
      intro x hx
      exact acceptedTimes_ge ts ⟨t⟩ x hx

/-! ## Claim C1 — atomicity of compression -/

/-- C1 (counterexample): the old-log compressor is **not** atomic.  With the
source `app-20230101.log` present, a failure of `io.Copy` inside
`safeCompress`/`gzipLogFile` returns an error and leaves an incomplete
(zero-byte) archive visible under the final archive name
`app-20230101.log.gz` — there is no temp file and no rename on this path, so
"never a partially written or zero-byte archive visible under the final
archive name" is false for the code. -/
theorem c1_atomicity_counterexample :
    (safeCompress [("app-20230101.log", FileContent.data 5)] "app-20230101.log"
        GzFailPoint.atCopy).2 = true ∧
    fsGet (safeCompress [("app-20230101.log", FileContent.data 5)]
        "app-20230101.log" GzFailPoint.atCopy).1 "app-20230101.log.gz" =
      some (FileContent.gzIncomplete 0) := by decide

/-- C1 (amended): (i) the indexed compressor `atomicGzipWithIndex` is atomic
up to the copy step — a failure at open, create or copy reports an error,
removes the temp file, and leaves both the source and the final archive name
untouched; (ii) the old-log path `safeCompress` never removes or truncates
the source on a failed run (though, per the counterexample, it can leave an
incomplete archive under the final name); (iii) a failure at the final rename
of `atomicGzipWithIndex` leaves the source already truncated with no archive
and no temp file, because `gzipLogFileWithIndex` truncates the source before
the caller renames. -/
theorem c1_compress_atomicity_amended :
    (∀ (fs : DirState) (src dst : String) (n : Nat) (fail : IdxFailPoint),
      fsGet fs src = some (.data n) →
      dst ≠ src → dst ++ ".tmp" ≠ src → dst ++ ".tmp" ≠ dst →
      (fail = .atOpen ∨ fail = .atCreate ∨ fail = .atCopy) →
      (atomicGzipWithIndex fs src dst fail).2 = true ∧
      fsGet (atomicGzipWithIndex fs src dst fail).1 src = some (.data n) ∧
      fsGet (atomicGzipWithIndex fs src dst fail).1 (dst ++ ".tmp") = none ∧
      fsGet (atomicGzipWithIndex fs src dst fail).1 dst = fsGet fs dst) ∧
    (∀ (fs : DirState) (src : String) (n : Nat) (fail : GzFailPoint),
      fsGet fs src = some (.data n) →
      (safeCompress fs src fail).2 = true →
      fsGet (safeCompress fs src fail).1 src = some (.data n)) ∧
    (∀ (fs : DirState) (src dst : String) (n : Nat),
      fsGet fs src = some (.data n) →
      dst ≠ src → dst ++ ".tmp" ≠ src → dst ++ ".tmp" ≠ dst →
      (atomicGzipWithIndex fs src dst .atRename).2 = true ∧
      fsGet (atomicGzipWithIndex fs src dst .atRename).1 src =
        some FileContent.truncated ∧
      fsGet (atomicGzipWithIndex fs src dst .atRename).1 (dst ++ ".tmp") = none) := by
  refine ⟨?_, ?_, ?_⟩
  · intro fs src dst n fail hsrc hds hts htd hfail
    rcases hfail with rfl | rfl | rfl <;>
      simp [atomicGzipWithIndex, gzipLogFileWithIndex, hsrc, fsGet_fsSet,
        fsGet_fsErase, hds, hts, htd]
  · intro fs src n fail hsrc herr
    have hgz : src ++ ".gz" ≠ src := append_ne_self src ".gz" (by decide)
    rcases fail with _ | _ | _ | _ <;>
      simp_all [safeCompress, gzipLogFile, fsGet_fsSet, fsGet_fsErase]
  · intro fs src dst n hsrc hds hts htd
    simp [atomicGzipWithIndex, gzipLogFileWithIndex, hsrc, fsGet_fsSet,
      fsGet_fsErase, hds, hts, htd]

/-- C1 (witness): the amended theorem applied to a one-file directory with a
copy failure of the indexed compressor. -/
theorem c1_compress_atomicity_witness :
    (atomicGzipWithIndex [("big.log", FileContent.data 9)] "big.log" "big.1.gz"
        IdxFailPoint.atCopy).2 = true ∧
    fsGet (atomicGzipWithIndex [("big.log", FileContent.data 9)] "big.log"
        "big.1.gz" IdxFailPoint.atCopy).1 "big.log" = some (FileContent.data 9) ∧
    fsGet (atomicGzipWithIndex [("big.log", FileContent.data 9)] "big.log"
        "big.1.gz" IdxFailPoint.atCopy).1 ("big.1.gz" ++ ".tmp") = none ∧
    fsGet (atomicGzipWithIndex [("big.log", FileContent.data 9)] "big.log"
        "big.1.gz" IdxFailPoint.atCopy).1 "big.1.gz" =
      fsGet [("big.log", FileContent.data 9)] "big.1.gz" :=
  c1_compress_atomicity_amended.1 [("big.log", FileContent.data 9)] "big.log"
    "big.1.gz" 9 IdxFailPoint.atCopy (by decide) (by decide) (by decide)
    (by decide) (Or.inr (Or.inr rfl))

/-! ## Claim C2 — archive index monotonicity -/

/-- C2: the claim fails on the code.  With `src = "app.log"` and archives
`app.1.gz` … `app.5.gz` present, the max-scanning revision of
`compressCurrentLogWithIndex` picks `app.1.gz` — not `app.6.gz` — because it
strips `.log` from the base name while `existingIndex` only recognises names
of the form `*.log.N.gz`, so every existing index reads as 0 and the name
`app.1.gz` is reused (and overwritten through the rename) on every
invocation.  The other revision (first free index) reuses a deleted
`app.3.gz`. -/
theorem c2_index_reuse_bug :
    compressCurrentLogWithIndexName "app.log"
        ["app.1.gz", "app.2.gz", "app.3.gz", "app.4.gz", "app.5.gz"] = "app.1.gz" ∧
    compressCurrentLogFirstFreeName "app.log"
        ["app.1.gz", "app.2.gz", "app.4.gz", "app.5.gz"] = "app.3.gz" := by decide

/-! ## Claim C3 — old-log classification -/

/-- C3 (counterexample): the src/logger.go revision of `isOldLogFile`
contradicts the claim's local-midnight rule.  In a UTC−5 zone
(offset −300 minutes) at 06:40 UTC on 2023-06-15, the file
`app-20230615.log` has an extractable date whose midnight is strictly before
the current **local** midnight — the claim therefore classifies it old — yet
`isOldLogFile` returns `false`, because it compares against the current
**UTC** midnight. -/
theorem c3_is_old_counterexample :
    extractValidDate "app-20230615.log" = some (2023, 6, 15) ∧
    dateMidnightUTC 2023 6 15 <
      localMidnightOf (dateMidnightUTC 2023 6 15 + 400) (-300) ∧
    isOldLogFileLoggerGo "app-20230615.log" (dateMidnightUTC 2023 6 15 + 400) =
      false := by decide

/-- C3 (amended): a path with no extractable date is never old (both
revisions); when a date is extracted, the src/unnamed/part_005 revision
returns true exactly when the date's midnight is strictly before the current
**local** midnight, while the src/logger.go revision compares against the
current **UTC** midnight instead — so the two revisions disagree whenever the
local offset is nonzero. -/
theorem c3_is_old_amended (name : String) (now off : Int) :
    (extractValidDate name = none →
      isOldLogFileLoggerGo name now = false ∧
      isOldLogFilePart005 name now off = false) ∧
    (∀ y m d, extractValidDate name = some (y, m, d) →
      (isOldLogFileLoggerGo name now = true ↔
        dateMidnightUTC y m d < utcMidnightOf now) ∧
      (isOldLogFilePart005 name now off = true ↔
        dateMidnightUTC y m d < localMidnightOf now off)) := by
  constructor
  · intro hx
    simp [isOldLogFileLoggerGo, isOldLogFilePart005, hx]
  · intro y m d hx
    simp [isOldLogFileLoggerGo, isOldLogFilePart005, hx]

/-- C3 (witness): the amended theorem applied to a name with no date token. -/
theorem c3_is_old_witness :
    isOldLogFileLoggerGo "nodate.log" 0 = false ∧
    isOldLogFilePart005 "nodate.log" 0 0 = false :=
  (c3_is_old_amended "nodate.log" 0 0).1 (by decide)

/-! ## Claim C4 — date extraction -/

/-- C4 (counterexample): the claim's token grammar (`specExtractDate`,
modelled from the spec's words) extracts 2023-02-28 from
`app.2023-02-28.log`, but the `dateRegex`-based extractor actually used by
`isOldLogFile`/`isGzExpired` matches only contiguous 8-digit tokens and
returns no date for that name — refuting "delimited names such as
app.2023-02-28.log yield a date" for the cited extractor. -/
theorem c4_date_extraction_counterexample :
    specExtractDate "app.2023-02-28.log" = some (2023, 2, 28) ∧
    extractValidDate "app.2023-02-28.log" = none := by decide

/-- C4 (amended): the repository has two divergent extractors.  The
`dateRegex` extractor guarantees the claimed ranges (year ∈ [2000,2099],
month ∈ [1,12], day ∈ [1,31]) but only for contiguous 8-digit tokens — it
extracts nothing from delimited names (see the counterexample) and nothing
from years outside 20xx; `parseDateFromFileName` (src/unnamed/part_001)
accepts delimited tokens such as `app.2023-02-28.log` but imposes no
year-range constraint, accepting e.g. 1999-12-31. -/
theorem c4_date_extraction_amended :
    (∀ (name : String) (y m d : Nat), extractValidDate name = some (y, m, d) →
      2000 ≤ y ∧ y ≤ 2099 ∧ 1 ≤ m ∧ m ≤ 12 ∧ 1 ≤ d ∧ d ≤ 31) ∧
    parseDateFromFileName "app.2023-02-28.log" = some (2023, 2, 28) ∧
    parseDateFromFileName "backup-19991231.log" = some (1999, 12, 31) ∧
    extractValidDate "backup-19991231.log" = none := by
  refine ⟨?_, by decide, by decide, by decide⟩
  intro name y m d h
  unfold extractValidDate at h
  split at h
  · rename_i heq
    split at h
    · simp only [Option.some.injEq, Prod.mk.injEq] at h
      obtain ⟨rfl, rfl, rfl⟩ := h
      exact findDateGo_ranges _ _ _ _ _ heq
    · simp at h
  · simp at h

/-- C4 (witness): the amended theorem's range guarantee applied to a name the
`dateRegex` extractor does match. -/
theorem c4_date_extraction_witness :
    extractValidDate "svc-20230615.log" = some (2023, 6, 15) ∧
    2000 ≤ 2023 ∧ 2023 ≤ 2099 ∧ 1 ≤ 6 ∧ 6 ≤ 12 ∧ 1 ≤ 15 ∧ 15 ≤ 31 :=
  ⟨by decide, c4_date_extraction_amended.1 "svc-20230615.log" 2023 6 15 (by decide)⟩

/-! ## Claim C5 — expiration boundary -/

/-- C5: for every archive name whose date extracts, `isGzExpired` holds
exactly when the encoded date's midnight is **strictly** before
`now − retention`; in particular an archive dated exactly `retention` before
`now` is not removed and one dated `retention` plus one day (1440 minutes)
before `now` is removed.  The same strict cutoff governs the removal decision
of part_001's `cleanExpiredGzLogs`. -/
theorem c5_expiration_boundary (name : String) (retMin now : Int) (y m d : Nat) :
    (extractValidDate name = some (y, m, d) →
      (isGzExpired name retMin now = true ↔
        dateMidnightUTC y m d < now - retMin) ∧
      (dateMidnightUTC y m d = now - retMin →
        isGzExpired name retMin now = false) ∧
      (dateMidnightUTC y m d = now - retMin - 1440 →
        isGzExpired name retMin now = true)) ∧
    (gzExtMatches name = true → parseDateFromFileName name = some (y, m, d) →
      (cleanExpiredRemoves name retMin now = true ↔
        dateMidnightUTC y m d < now - retMin)) := by
  constructor
  · intro hx
    refine ⟨by simp [isGzExpired, hx], ?_, ?_⟩
    · intro hb; simp [isGzExpired, hx]; omega
    · intro hb; simp [isGzExpired, hx]; omega
  · intro hgz hx
    simp [cleanExpiredRemoves, hgz, hx]

/-- C5 (witness): the boundary theorem applied to `app-20230101.log.gz` with
a 30-day (43200-minute) retention: not expired exactly at the boundary,
expired one day past it. -/
theorem c5_expiration_boundary_witness :
    isGzExpired "app-20230101.log.gz" 43200
      (dateMidnightUTC 2023 1 1 + 43200) = false ∧
    isGzExpired "app-20230101.log.gz" 43200
      (dateMidnightUTC 2023 1 1 + 43200 + 1440) = true := by
  constructor
  · exact ((c5_expiration_boundary "app-20230101.log.gz" 43200
      (dateMidnightUTC 2023 1 1 + 43200) 2023 1 1).1 (by decide)).2.1 (by omega)
  · exact ((c5_expiration_boundary "app-20230101.log.gz" 43200
      (dateMidnightUTC 2023 1 1 + 43200 + 1440) 2023 1 1).1 (by decide)).2.2 (by omega)

/-! ## Claim C6 — pass throttling -/

/-- C6: an invocation of `safeRunCompressionJob` arriving less than
`minInterval` (5 seconds) after the last accepted run started performs no
work and changes no state; and along any sequence of invocations, every two
accepted start instants are at least 5 seconds apart. -/
theorem c6_pass_throttle :
    (∀ (now : Int) (st : ThrottleState), now - st.lastRun < minIntervalSec →
      safeRunStep now st = (st, false)) ∧
    (∀ (ts : List Int) (st : ThrottleState),
      (acceptedTimes ts st).Pairwise (fun a b => a + minIntervalSec ≤ b)) := by
  constructor
  · intro now st h; simp [safeRunStep, h]
  · exact acceptedTimes_pairwise

/-- C6 (witness): an invocation 3 seconds after the last accepted run is
rejected without a state change. -/
theorem c6_pass_throttle_witness :
    safeRunStep 3 ⟨0⟩ = (⟨0⟩, false) :=
  c6_pass_throttle.1 3 ⟨0⟩ (by decide)

/-! ## Claim C7 — panic containment -/

/-- C7 (counterexample): a pass whose dispatcher goroutine is fine but whose
single per-directory worker goroutine panics terminates the host process —
the deferred `recover` in `safeRunCompressionJob` lives in the invoking
goroutine and cannot intercept a panic raised in a worker goroutine, and the
workers defer no `recover` of their own. -/
theorem c7_panic_counterexample :
    processOutcome (passGoroutines false [true]) = ProcOutcome.terminated := by decide

/-- C7 (amended): a pass survives exactly when no per-directory worker
goroutine panics; a panic in the invoking goroutine's own frames is always
recovered by `safeRunCompressionJob`'s deferred `recover`. -/
theorem c7_panic_amended (dp : Bool) (wps : List Bool) :
    processOutcome (passGoroutines dp wps) = ProcOutcome.running ↔
      ∀ p ∈ wps, p = false := by
  rw [processOutcome_running_iff]
  unfold passGoroutines
  constructor
  · intro H p hp
    have h1 := H ⟨p, false⟩
      (List.mem_cons_of_mem _ (List.mem_map_of_mem _ hp))
    simpa [goroutineUnrecovered] using h1
  · intro H g hg
    rcases List.mem_cons.mp hg with rfl | hg'
    · simp [goroutineUnrecovered]
    · obtain ⟨p, hp, rfl⟩ := List.mem_map.mp hg'
      simp [goroutineUnrecovered, H p hp]

/-! ## Claim C8 — stale-registration eviction -/

/-- C8: the eviction scan does not look at registration ages.  First
conjunct: at a scan at `now = 1000` with `lastRunTime = 999` (as set by
`safeRunCompressionJob` moments earlier), a registration made at `now − 600`
— ten minutes old, well past the 5-minute window — is **kept**, because the
scan's condition only reads the global `lastRunTime`.  Second conjunct: with
`lastRunTime = 600`, a registration made one second ago is **evicted** along
with everything else. -/
theorem c8_stale_eviction_bug :
    registryScan ["dirA"] 1000 999 = ["dirA"] ∧
    registryScan ["dirB"] 1000 600 = [] := by decide

/-! ## Claim C9 — daily trigger scheduling -/

/-- C9: `nextRunTime` behaves as claimed (02:00 already past → tomorrow
02:00; 01:00, not yet past → today 02:00), but the daily loop of
src/unnamed/part_003 does **not** run the pass on firing unless the fire
instant's hour is the literal 1: with the configured time 02:00:00 the timer
fires and no pass runs, while with 01:00:00 it does. -/
theorem c9_daily_schedule_bug :
    nextRunTime 2 0 0 (19358 * 86400 + 3 * 3600) = 19359 * 86400 + 7200 ∧
    nextRunTime 2 0 0 (19358 * 86400 + 3600) = 19358 * 86400 + 7200 ∧
    scheduleDailyFiresPass 2 0 0 (19358 * 86400 + 3 * 3600) = false ∧
    scheduleDailyFiresPass 1 0 0 (19358 * 86400 + 3 * 3600) = true := by decide

/-! ## Claim C10 — lock detection -/

/-- C10: `isFileLocked` returns true exactly when the path exists (the stat
probe does not say not-exist) and the exclusive open fails with a permission
error; a missing path, a successful open, and every other open error all
yield false. -/
theorem c10_lock_detection (p : FileProbe) :
    isFileLocked p = true ↔
      p.statSaysNotExist = false ∧ p.openResult = OpenOutcome.permDenied := by
  obtain ⟨st, op⟩ := p
  cases st <;> cases op <;> simp [isFileLocked]

end ZapLog
